import Mathlib

/-!
Shallow embedding of `src/src/main.rs` (a Maelstrom-style broadcast node).

The Rust program keeps one mutable `Node` record behind a mutex; each
inbound envelope is handled by one match arm that may mutate the node and
emit envelopes on stdout.  We model the node record, the payload enum and
each handler as pure functions.  A handler's effect is captured by
`Handled`: the node after the arm ran, the envelopes the arm wrote to
stdout in order, and `err = some s` when the arm panicked (`expect`) or
bailed (`anyhow::bail!`) with message `s`; mutations and sends performed
before the failure point are retained, matching the real control flow.
`HashMap` / `HashSet` are modelled as association lists / lists with the
corresponding insert, remove and membership operations.
-/

namespace Maelle

/-- The `Payload` enum of `main.rs` (lines 11-78); the commented-out
`Add`/`Write` variants of the source are omitted as they are in the code. -/
inductive Payload where
  | Init (msg_id : Nat) (node_id : String) (node_ids : List String)
  | InitOk (in_reply_to : Nat)
  | Echo (msg_id : Nat) (echo : String)
  | EchoOk (msg_id : Nat) (in_reply_to : Nat) (echo : String)
  | Generate (msg_id : Nat)
  | GenerateOk (msg_id : Nat) (in_reply_to : Nat) (id : String)
  | Topology (topology : List (String × List String)) (msg_id : Nat)
  | TopologyOk (msg_id : Nat) (in_reply_to : Nat)
  | Broadcast (msg_id : Nat) (message : Nat)
  | BroadcastOk (msg_id : Nat) (in_reply_to : Nat)
  | Read (msg_id : Nat)
  | ReadOk (msg_id : Nat) (in_reply_to : Nat) (messages : List Nat)
deriving DecidableEq, Repr

/-- The `Message` struct: `{ src, dest, body }` (lines 80-85). -/
structure Message where
  src : String
  dest : String
  body : Payload
deriving DecidableEq, Repr

/-- The `Node` struct (lines 87-94).  `topology` models the
`HashMap<String, Vec<String>>` as an association list, `messages` the
`HashSet<usize>` as a duplicate-free-by-construction list, `callbacks`
the `HashMap<usize, String>` as an association list. -/
structure Node where
  id : String
  node_ids : List String
  last_msg_id : Nat
  topology : List (String × List String)
  messages : List Nat
  callbacks : List (Nat × String)
deriving DecidableEq, Repr

/-- `Node::new` (lines 96-105). -/
def Node.new (id : String) (node_ids : List String) : Node :=
  { id := id, node_ids := node_ids, last_msg_id := 0,
    topology := [], messages := [], callbacks := [] }

/-- `Node::next_msg_id` (lines 106-109): increments the counter and
returns the new value, together with the updated node. -/
def Node.nextMsgId (n : Node) : Node × Nat :=
  ({ n with last_msg_id := n.last_msg_id + 1 }, n.last_msg_id + 1)

/-- `Node::gen_unique_id` (lines 110-114): the node id with the current
counter value's decimal rendering appended. -/
def Node.genUniqueId (n : Node) : String :=
  n.id ++ Nat.repr n.last_msg_id

/-- `HashSet::insert` on the delivered-value set: no-op when the value is
already present. -/
def hsInsert (v : Nat) (l : List Nat) : List Nat :=
  if l.contains v then l else v :: l

/-- `HashMap::insert` on the callbacks table: the new binding shadows (and
here replaces) any previous binding of the same key. -/
def hmInsert (k : Nat) (v : String) (l : List (Nat × String)) : List (Nat × String) :=
  (k, v) :: l.filter (fun p => ¬ (p.1 = k))

/-- `HashMap::remove` on the callbacks table (the removed value itself is
inspected only for presence by the caller's `expect`). -/
def hmRemove (k : Nat) (l : List (Nat × String)) : List (Nat × String) :=
  l.filter (fun p => ¬ (p.1 = k))

/-- Outcome of one handler arm: node state after the arm, envelopes sent
to stdout in order, and the panic/bail message if the arm failed.  State
changes and sends made before a failure are kept, as in the source. -/
structure Handled where
  node : Node
  out : List Message
  err : Option String
deriving DecidableEq, Repr

/-- The fan-out loop of the `Payload::Broadcast` arm (lines 238-246):
for each neighbor other than the immediate sender, allocate a fresh
correlation id, record it in `callbacks` mapped to that neighbor, and
send a `broadcast` carrying the value to that neighbor. -/
def fanOut (nd : Node) (src : String) (message : Nat) :
    List String → Node × List Message
  | [] => (nd, [])
  | nb :: rest =>
    if nb = src then fanOut nd src message rest
    else
      let p := nd.nextMsgId
      let nd2 := { p.1 with callbacks := hmInsert p.2 nb p.1.callbacks }
      let msg : Message := ⟨nd2.id, nb, Payload.Broadcast p.2 message⟩
      let q := fanOut nd2 src message rest
      (q.1, msg :: q.2)

/-- The `Payload::Broadcast` arm (lines 223-248): unconditionally
acknowledge to the sender, then, if the value is new, insert it and fan
out to the node's neighbors; a missing topology entry for the node's own
id is the `expect("failed get topology")` panic. -/
def handleBroadcast (nd : Node) (src : String) (msg_id message : Nat) : Handled :=
  let p := nd.nextMsgId
  let nd1 := p.1
  let ack : Message := ⟨nd1.id, src, Payload.BroadcastOk p.2 msg_id⟩
  if nd1.messages.contains message then
    ⟨nd1, [ack], none⟩
  else
    let nd2 := { nd1 with messages := hsInsert message nd1.messages }
    match nd2.topology.lookup nd2.id with
    | none => ⟨nd2, [ack], some "failed get topology"⟩
    | some neighbors =>
      let q := fanOut nd2 src message neighbors
      ⟨q.1, ack :: q.2, none⟩

/-- The `Payload::BroadcastOk` arm (lines 249-257): remove the entry
keyed by `in_reply_to`; `expect("callback not found")` when absent. -/
def handleBroadcastOk (nd : Node) (in_reply_to : Nat) : Handled :=
  match nd.callbacks.lookup in_reply_to with
  | some _ => ⟨{ nd with callbacks := hmRemove in_reply_to nd.callbacks }, [], none⟩
  | none => ⟨nd, [], some "callback not found"⟩

/-- The `Payload::Echo` arm (lines 182-190). -/
def handleEcho (nd : Node) (src : String) (msg_id : Nat) (echo : String) : Handled :=
  let p := nd.nextMsgId
  ⟨p.1, [⟨p.1.id, src, Payload.EchoOk p.2 msg_id echo⟩], none⟩

/-- The `Payload::Generate` arm (lines 196-204): the reply's `msg_id`
field is computed by `next_msg_id` before `gen_unique_id` reads the
counter, following Rust's left-to-right field evaluation. -/
def handleGenerate (nd : Node) (src : String) (msg_id : Nat) : Handled :=
  let p := nd.nextMsgId
  ⟨p.1, [⟨p.1.id, src, Payload.GenerateOk p.2 msg_id p.1.genUniqueId⟩], none⟩

/-- The `Payload::Topology` arm (lines 210-218): overwrite the topology,
then acknowledge. -/
def handleTopology (nd : Node) (src : String)
    (topology : List (String × List String)) (msg_id : Nat) : Handled :=
  let nd1 := { nd with topology := topology }
  let p := nd1.nextMsgId
  ⟨p.1, [⟨p.1.id, src, Payload.TopologyOk p.2 msg_id⟩], none⟩

/-- The `Payload::Read` arm (lines 258-266): reply with the current
delivered-value set. -/
def handleRead (nd : Node) (src : String) (msg_id : Nat) : Handled :=
  let p := nd.nextMsgId
  ⟨p.1, [⟨p.1.id, src, Payload.ReadOk p.2 msg_id p.1.messages⟩], none⟩

/-- The dispatch `match` of `main` (lines 181-281): one arm per payload
tag; the four `*Ok` acknowledgments the node may receive are discarded
silently; `Init` and `InitOk` fall through to the catch-all
`anyhow::bail!("invalid message received")` arm (line 272). -/
def handleMessage (nd : Node) (m : Message) : Handled :=
  match m.body with
  | .Echo msg_id echo => handleEcho nd m.src msg_id echo
  | .EchoOk _ _ _ => ⟨nd, [], none⟩
  | .Generate msg_id => handleGenerate nd m.src msg_id
  | .GenerateOk _ _ _ => ⟨nd, [], none⟩
  | .Topology topology msg_id => handleTopology nd m.src topology msg_id
  | .TopologyOk _ _ => ⟨nd, [], none⟩
  | .Broadcast msg_id message => handleBroadcast nd m.src msg_id message
  | .BroadcastOk _ in_reply_to => handleBroadcastOk nd in_reply_to
  | .Read msg_id => handleRead nd m.src msg_id
  | .ReadOk _ _ _ => ⟨nd, [], none⟩
  | _ => ⟨nd, [], some "invalid message received"⟩

/-- `init_node` (lines 117-146): the first envelope must carry `Init`;
then the node replies `InitOk` (from the new node id, to the envelope's
`src`) and the node state is built by `Node::new`; any other payload is
`anyhow::bail!("received non init message before init")`, with no reply. -/
def initNode (m : Message) : Except String (Node × Message) :=
  match m.body with
  | .Init msg_id node_id node_ids =>
      .ok (Node.new node_id node_ids, ⟨node_id, m.src, Payload.InitOk msg_id⟩)
  | _ => .error "received non init message before init"

/-- Driver: deliver a sequence of `broadcast` envelopes, all carrying the
same value, to one node; returns the final node and the per-request
output lists in order.  Each element of the request list is the
envelope's `src` and `msg_id`. -/
def runBroadcasts (nd : Node) (message : Nat) :
    List (String × Nat) → Node × List (List Message)
  | [] => (nd, [])
  | (src, msg_id) :: rest =>
    let r := handleBroadcast nd src msg_id message
    let q := runBroadcasts r.node message rest
    (q.1, r.out :: q.2)

/-- Driver: a sequence of `generate` requests delivered to one node;
returns the final node and the `id` strings of the `generate_ok` replies
in order. -/
def runGenerates (nd : Node) (src : String) : List Nat → Node × List String
  | [] => (nd, [])
  | msg_id :: rest =>
    let r := handleGenerate nd src msg_id
    let q := runGenerates r.node src rest
    (q.1, (r.out.filterMap fun m => genOkId m.body) ++ q.2)
where
  /-- The `id` field of a `generate_ok` payload, if it is one. -/
  genOkId : Payload → Option String
  | .GenerateOk _ _ i => some i
  | _ => none

/-- The fan-out envelopes among a handler's output: those whose payload
is a `broadcast` request. -/
def broadcastsIn (out : List Message) : List Message :=
  out.filter fun m => match m.body with
    | .Broadcast _ _ => true
    | _ => false

/-- The callback entries corresponding to a handler's fan-out output:
one `(msg_id, dest)` pair per `broadcast` request sent. -/
def cbPairs (out : List Message) : List (Nat × String) :=
  out.filterMap fun m => match m.body with
    | .Broadcast msg_id _ => some (msg_id, m.dest)
    | _ => none

/-- The acknowledgments among a handler's output: those whose payload is
a `broadcast_ok`. -/
def acksIn (out : List Message) : List Message :=
  out.filter fun m => match m.body with
    | .BroadcastOk _ _ => true
    | _ => false

/-- Discriminator for the initialization payload. -/
def isInit : Payload → Bool
  | .Init _ _ _ => true
  | _ => false

/-! ### Decimal rendering is injective

The unique-id operation concatenates the node id with `Nat.repr` of the
counter; the intra-node uniqueness claim needs that distinct counters
render to distinct strings. -/

/-- Distinct decimal digits render to distinct characters. -/
lemma digitChar_inj_of_lt : ∀ a, a < 10 → ∀ b, b < 10 →
    Nat.digitChar a = Nat.digitChar b → a = b := by decide

/-- Mapping `Nat.digitChar` over lists of decimal digits is injective. -/
lemma map_digitChar_inj : ∀ l1 l2 : List Nat, (∀ x ∈ l1, x < 10) →
    (∀ x ∈ l2, x < 10) → l1.map Nat.digitChar = l2.map Nat.digitChar → l1 = l2
  | [], [], _, _, _ => rfl
  | [], _ :: _, _, _, h => by simp at h
  | _ :: _, [], _, _, h => by simp at h
  | a :: l1, b :: l2, h1, h2, h => by
    simp only [List.map_cons, List.cons.injEq] at h
    have hab := digitChar_inj_of_lt a (h1 a (List.mem_cons_self a l1)) b
      (h2 b (List.mem_cons_self b l2)) h.1
    have htl := map_digitChar_inj l1 l2
      (fun x hx => h1 x (List.mem_cons_of_mem a hx))
      (fun x hx => h2 x (List.mem_cons_of_mem b hx)) h.2
    rw [hab, htl]

/-- With enough fuel, the core digit renderer produces the reversed
digit-character list of `Nat.digits`, in front of the accumulator. -/
lemma toDigitsCore_eq_digits : ∀ f n ds, 0 < n → n ≤ f →
    Nat.toDigitsCore 10 f n ds = ((Nat.digits 10 n).map Nat.digitChar).reverse ++ ds := by
  intro f
  induction f with
  | zero => intro n ds h0 h1; omega
  | succ f ih =>
    intro n ds h0 h1
    rw [Nat.toDigitsCore]
    by_cases hd : n / 10 = 0
    · simp only [hd, if_true]
      rw [Nat.digits_def' (by norm_num : (1:ℕ) < 10) h0, hd]
      simp
    · simp only [hd, if_false]
      have hpos : 0 < n / 10 := Nat.pos_of_ne_zero hd
      have hle : n / 10 ≤ f := by
        have := Nat.div_lt_self h0 (by norm_num : 1 < 10)
        omega
      rw [ih (n / 10) _ hpos hle, Nat.digits_def' (by norm_num : (1:ℕ) < 10) h0]
      simp

/-- A positive natural never renders like zero. -/
lemma toDigits_zero_ne {b : Nat} (hb : 0 < b) :
    Nat.toDigits 10 0 ≠ Nat.toDigits 10 b := by
  intro h
  have h0 : Nat.toDigits 10 0 = ['0'] := rfl
  have hB : Nat.toDigits 10 b = ((Nat.digits 10 b).map Nat.digitChar).reverse := by
    have := toDigitsCore_eq_digits (b + 1) b [] hb (Nat.le_succ b)
    simpa [Nat.toDigits] using this
  rw [h0, hB] at h
  have hmap : (Nat.digits 10 b).map Nat.digitChar = ['0'] := by
    have := congrArg List.reverse h
    simpa using this.symm
  have hne : b ≠ 0 := Nat.pos_iff_ne_zero.mp hb
  rcases hL : Nat.digits 10 b with _ | ⟨d, tl⟩
  · rw [hL] at hmap; simp at hmap
  · rcases tl with _ | ⟨e, tl⟩
    · rw [hL] at hmap
      simp only [List.map_cons, List.map_nil, List.cons.injEq] at hmap
      have hd10 : d < 10 := Nat.digits_lt_base (by norm_num) (by rw [hL]; simp)
      have hd0 : d = 0 := digitChar_inj_of_lt d hd10 0 (by norm_num) (by rw [hmap.1]; rfl)
      have hofd := (Nat.ofDigits_digits 10 b).symm
      rw [hL, hd0] at hofd
      exact hne (by simpa [Nat.ofDigits] using hofd)
    · rw [hL] at hmap; simp at hmap

/-- Decimal digit-list rendering distinguishes distinct naturals. -/
lemma toDigits_ten_inj {a b : Nat} (h : Nat.toDigits 10 a = Nat.toDigits 10 b) : a = b := by
  rcases Nat.eq_zero_or_pos a with ha | ha <;> rcases Nat.eq_zero_or_pos b with hb | hb
  · omega
  · subst ha; exact absurd h (toDigits_zero_ne hb)
  · subst hb; exact absurd h.symm (toDigits_zero_ne ha)
  · have hA : Nat.toDigits 10 a = ((Nat.digits 10 a).map Nat.digitChar).reverse := by
      have := toDigitsCore_eq_digits (a + 1) a [] ha (Nat.le_succ a)
      simpa [Nat.toDigits] using this
    have hB : Nat.toDigits 10 b = ((Nat.digits 10 b).map Nat.digitChar).reverse := by
      have := toDigitsCore_eq_digits (b + 1) b [] hb (Nat.le_succ b)
      simpa [Nat.toDigits] using this
    rw [hA, hB, List.reverse_inj] at h
    have hdig := map_digitChar_inj _ _
      (fun x hx => Nat.digits_lt_base (by norm_num) hx)
      (fun x hx => Nat.digits_lt_base (by norm_num) hx) h
    calc a = Nat.ofDigits 10 (Nat.digits 10 a) := (Nat.ofDigits_digits 10 a).symm
      _ = Nat.ofDigits 10 (Nat.digits 10 b) := by rw [hdig]
      _ = b := Nat.ofDigits_digits 10 b

/-- Decimal string rendering of naturals is injective. -/
lemma repr_nat_inj {a b : Nat} (h : Nat.repr a = Nat.repr b) : a = b :=
  toDigits_ten_inj (congrArg String.data h)

/-- Appending to a fixed string is injective. -/
lemma string_append_right_inj {s x y : String} (h : s ++ x = s ++ y) : x = y := by
  have hd : s.data ++ x.data = s.data ++ y.data := by
    simpa [String.data_append] using congrArg String.data h
  have := List.append_cancel_left hd
  cases x; cases y; exact congrArg String.mk this

/-- Appending to distinct strings of equal length yields distinct strings. -/
lemma string_append_ne_of_ne {a b x y : String}
    (hlen : a.length = b.length) (hne : a ≠ b) : a ++ x ≠ b ++ y := by
  intro h
  have hd : a.data ++ x.data = b.data ++ y.data := by
    simpa [String.data_append] using congrArg String.data h
  have := (List.append_inj hd hlen).1
  exact hne (by cases a; cases b; exact congrArg String.mk this)

/-! ### Association-list lemmas -/

/-- Looking up after a removal: the removed key is gone, others are
untouched. -/
lemma lookup_hmRemove (C k : Nat) (l : List (Nat × String)) :
    (hmRemove C l).lookup k = if k = C then none else l.lookup k := by
  induction l with
  | nil => simp [hmRemove]
  | cons p tl ih =>
    rcases p with ⟨a, v⟩
    by_cases h1 : a = C
    · subst h1
      by_cases h2 : k = a
      · subst h2
        simpa [hmRemove, List.filter_cons] using ih
      · have hb : (k == a) = false := by simpa using h2
        simp only [hmRemove, decide_not] at ih
        simp [hmRemove, List.filter_cons, List.lookup, decide_not, hb, h2, ih]
    · by_cases h2 : k = a
      · subst h2
        simp [hmRemove, List.filter_cons, List.lookup, h1, beq_iff_eq]
      · have hb : (k == a) = false := by simpa using h2
        simp only [hmRemove, decide_not] at ih
        simp [hmRemove, List.filter_cons, List.lookup, decide_not, h1, hb, ih]

/-- Inserting a key larger than every present key is a plain cons. -/
lemma hmInsert_fresh {k : Nat} {v : String} {l : List (Nat × String)} {m : Nat}
    (hall : ∀ p ∈ l, p.1 ≤ m) (hk : m < k) : hmInsert k v l = (k, v) :: l := by
  unfold hmInsert
  congr 1
  apply List.filter_eq_self.mpr
  intro p hp
  simp only [decide_eq_true_eq]
  intro h
  exact absurd (h ▸ hall p hp) (by omega)

/-! ### Fan-out loop lemmas -/

/-- The fan-out loop does not change the node's identity, delivered-value
set, topology or member list. -/
lemma fanOut_frame (src : String) (V : Nat) :
    ∀ l (nd : Node), (fanOut nd src V l).1.id = nd.id ∧
      (fanOut nd src V l).1.messages = nd.messages ∧
      (fanOut nd src V l).1.topology = nd.topology ∧
      (fanOut nd src V l).1.node_ids = nd.node_ids := by
  intro l
  induction l with
  | nil => intro nd; exact ⟨rfl, rfl, rfl, rfl⟩
  | cons nb rest ih =>
    intro nd
    by_cases h : nb = src
    · simpa [fanOut, h] using ih nd
    · simpa [fanOut, h] using ih _

/-- The destinations of the fan-out envelopes are the neighbor list with
the immediate sender filtered out, in order. -/
lemma fanOut_dests (src : String) (V : Nat) :
    ∀ l (nd : Node), ((fanOut nd src V l).2).map Message.dest =
      l.filter (fun x => ¬ (x = src)) := by
  intro l
  induction l with
  | nil => intro nd; rfl
  | cons nb rest ih =>
    intro nd
    by_cases h : nb = src <;> simp [fanOut, h, List.filter_cons, ih]

/-- Every envelope the fan-out loop emits is a `broadcast` request
carrying the flooded value, from this node. -/
lemma fanOut_out_payload (src : String) (V : Nat) :
    ∀ l (nd : Node), ∀ m ∈ (fanOut nd src V l).2,
      (∃ k, m.body = Payload.Broadcast k V) ∧ m.src = nd.id := by
  intro l
  induction l with
  | nil => intro nd m hm; simp [fanOut] at hm
  | cons nb rest ih =>
    intro nd m hm
    by_cases h : nb = src
    · simp only [fanOut, if_pos h] at hm
      exact ih nd m hm
    · simp only [fanOut, if_neg h] at hm
      rcases List.mem_cons.mp hm with rfl | hm
      · exact ⟨⟨nd.last_msg_id + 1, rfl⟩, rfl⟩
      · have h2 := ih _ m hm
        exact h2

/-- With fresh keys available, the fan-out loop prepends exactly the
`(correlation id, neighbor)` pairs of the envelopes it sends, newest
first, to the callbacks table. -/
lemma fanOut_callbacks (src : String) (V : Nat) :
    ∀ l (nd : Node), (∀ p ∈ nd.callbacks, p.1 ≤ nd.last_msg_id) →
      (fanOut nd src V l).1.callbacks =
        (cbPairs (fanOut nd src V l).2).reverse ++ nd.callbacks := by
  intro l
  induction l with
  | nil => intro nd _; simp [fanOut, cbPairs]
  | cons nb rest ih =>
    intro nd hall
    by_cases h : nb = src
    · simp only [fanOut, h, if_true]
      exact ih nd hall
    · have hins : hmInsert (nd.last_msg_id + 1) nb nd.callbacks =
          (nd.last_msg_id + 1, nb) :: nd.callbacks :=
        hmInsert_fresh hall (Nat.lt_succ_self _)
      have hall2 : ∀ p ∈ (nd.last_msg_id + 1, nb) :: nd.callbacks,
          p.1 ≤ nd.last_msg_id + 1 := by
        intro p hp
        rcases List.mem_cons.mp hp with rfl | hp
        · exact Nat.le_refl _
        · exact Nat.le_succ_of_le (hall p hp)
      have hrec := ih ⟨nd.id, nd.node_ids, nd.last_msg_id + 1, nd.topology, nd.messages, (nd.last_msg_id + 1, nb) :: nd.callbacks⟩ hall2
      simp only [fanOut, if_neg h, Node.nextMsgId, hins]
      simp only [cbPairs, List.filterMap_cons] at hrec ⊢
      simp [hrec, cbPairs]

/-! ### Broadcast handler branch equations -/

/-- A duplicate value: the whole arm is the acknowledgment and the
counter increment, nothing else. -/
lemma handleBroadcast_dup {nd : Node} {src : String} {msg_id V : Nat}
    (h : nd.messages.contains V = true) :
    handleBroadcast nd src msg_id V =
      ⟨⟨nd.id, nd.node_ids, nd.last_msg_id + 1, nd.topology, nd.messages, nd.callbacks⟩,
       [⟨nd.id, src, Payload.BroadcastOk (nd.last_msg_id + 1) msg_id⟩], none⟩ := by
  have hm : V ∈ nd.messages := by simpa using h
  simp [handleBroadcast, Node.nextMsgId, hm]

/-- A new value with a topology entry present: acknowledgment, insert,
then fan-out over the neighbor list. -/
lemma handleBroadcast_new {nd : Node} {src : String} {msg_id V : Nat} {nbrs : List String}
    (hnew : nd.messages.contains V = false)
    (htop : nd.topology.lookup nd.id = some nbrs) :
    handleBroadcast nd src msg_id V =
      ⟨(fanOut ⟨nd.id, nd.node_ids, nd.last_msg_id + 1, nd.topology, V :: nd.messages,
          nd.callbacks⟩ src V nbrs).1,
       ⟨nd.id, src, Payload.BroadcastOk (nd.last_msg_id + 1) msg_id⟩ ::
         (fanOut ⟨nd.id, nd.node_ids, nd.last_msg_id + 1, nd.topology, V :: nd.messages,
           nd.callbacks⟩ src V nbrs).2,
       none⟩ := by
  have hm : V ∉ nd.messages := by simpa using hnew
  simp [handleBroadcast, Node.nextMsgId, hm, hnew, hsInsert, htop]

/-- A new value with no topology entry for this node: the value is
inserted, the acknowledgment was already sent, and the arm dies on the
`expect`. -/
lemma handleBroadcast_notop {nd : Node} {src : String} {msg_id V : Nat}
    (hnew : nd.messages.contains V = false)
    (htop : nd.topology.lookup nd.id = none) :
    handleBroadcast nd src msg_id V =
      ⟨⟨nd.id, nd.node_ids, nd.last_msg_id + 1, nd.topology, V :: nd.messages, nd.callbacks⟩,
       [⟨nd.id, src, Payload.BroadcastOk (nd.last_msg_id + 1) msg_id⟩],
       some "failed get topology"⟩ := by
  have hm : V ∉ nd.messages := by simpa using hnew
  simp [handleBroadcast, Node.nextMsgId, hm, hnew, hsInsert, htop]

/-- After the value is delivered, any further broadcast of it leaves the
delivered-value set untouched and fans nothing out. -/
lemma runBroadcasts_dup (V : Nat) :
    ∀ reqs (nd : Node), nd.messages.contains V = true →
      (runBroadcasts nd V reqs).1.messages = nd.messages ∧
      ∀ out ∈ (runBroadcasts nd V reqs).2, broadcastsIn out = [] := by
  intro reqs
  induction reqs with
  | nil =>
    intro nd h
    exact ⟨rfl, by intro out hout; simp [runBroadcasts] at hout⟩
  | cons r rest ih =>
    intro nd h
    rcases r with ⟨src, mid⟩
    have hstep := @handleBroadcast_dup nd src mid V h
    have ih2 := ih ⟨nd.id, nd.node_ids, nd.last_msg_id + 1, nd.topology, nd.messages,
      nd.callbacks⟩ h
    constructor
    · simp only [runBroadcasts, hstep]
      exact ih2.1
    · intro out hout
      simp only [runBroadcasts, hstep] at hout
      rcases List.mem_cons.mp hout with rfl | hout
      · simp [broadcastsIn]
      · exact ih2.2 out hout

/-! ### Generate driver lemmas -/

/-- The ids returned by a run of `generate` requests are the node id
followed by the successive counter values. -/
lemma runGenerates_ids (src : String) :
    ∀ mids (nd : Node), (runGenerates nd src mids).2 =
      (List.range mids.length).map
        (fun k => nd.id ++ Nat.repr (nd.last_msg_id + 1 + k)) := by
  intro mids
  induction mids with
  | nil => intro nd; simp [runGenerates]
  | cons mid rest ih =>
    intro nd
    have ih2 := ih ⟨nd.id, nd.node_ids, nd.last_msg_id + 1, nd.topology, nd.messages,
      nd.callbacks⟩
    simp only [runGenerates, handleGenerate, Node.nextMsgId, Node.genUniqueId,
      runGenerates.genOkId, List.filterMap_cons, List.filterMap_nil] at ih2 ⊢
    rw [ih2, List.length_cons, List.range_succ_eq_map]
    simp only [List.map_cons, List.map_map, Function.comp, List.singleton_append]
    refine congrArg₂ List.cons (by simp) ?_
    apply List.map_congr_left
    intro k _
    congr 2
    omega

/-- Every id a generate run returns is the node id followed by some
counter rendering. -/
lemma runGenerates_mem {nd : Node} {src : String} {mids : List Nat} :
    ∀ i ∈ (runGenerates nd src mids).2, ∃ c, i = nd.id ++ Nat.repr c := by
  rw [runGenerates_ids]
  intro i hi
  rcases List.mem_map.mp hi with ⟨k, hk, rfl⟩
  exact ⟨nd.last_msg_id + 1 + k, rfl⟩

/-! ### Output classification lemmas -/

/-- Unfolding the broadcast-sequence driver one step. -/
lemma runBroadcasts_cons (nd : Node) (V : Nat) (src : String) (mid : Nat)
    (rest : List (String × Nat)) :
    runBroadcasts nd V ((src, mid) :: rest) =
      ((runBroadcasts (handleBroadcast nd src mid V).node V rest).1,
       (handleBroadcast nd src mid V).out ::
         (runBroadcasts (handleBroadcast nd src mid V).node V rest).2) := rfl

/-- An acknowledgment at the head is invisible to the fan-out filter. -/
lemma broadcastsIn_ack_cons (s d : String) (a b : Nat) (l : List Message) :
    broadcastsIn (⟨s, d, Payload.BroadcastOk a b⟩ :: l) = broadcastsIn l := by
  simp [broadcastsIn]

/-- Every fan-out envelope is a `broadcast`, so the fan-out filter keeps
all of them. -/
lemma broadcastsIn_fanOut (src : String) (V : Nat) (l : List String) (nd : Node) :
    broadcastsIn (fanOut nd src V l).2 = (fanOut nd src V l).2 := by
  apply List.filter_eq_self.mpr
  intro m hm
  rcases (fanOut_out_payload src V l nd m hm).1 with ⟨k, hk⟩
  simp [hk]

/-- No fan-out envelope is an acknowledgment. -/
lemma acksIn_fanOut (src : String) (V : Nat) (l : List String) (nd : Node) :
    acksIn (fanOut nd src V l).2 = [] := by
  apply List.filter_eq_nil_iff.mpr
  intro m hm
  rcases (fanOut_out_payload src V l nd m hm).1 with ⟨k, hk⟩
  simp [hk]

/-- An acknowledgment at the head passes the acknowledgment filter. -/
lemma acksIn_ack_cons (s d : String) (a b : Nat) (l : List Message) :
    acksIn (⟨s, d, Payload.BroadcastOk a b⟩ :: l) =
      ⟨s, d, Payload.BroadcastOk a b⟩ :: acksIn l := by
  simp [acksIn]

/-- An acknowledgment at the head contributes no callback pair. -/
lemma cbPairs_ack_cons (s d : String) (a b : Nat) (l : List Message) :
    cbPairs (⟨s, d, Payload.BroadcastOk a b⟩ :: l) = cbPairs l := by
  simp [cbPairs]

/-- The fan-out output of a new-value broadcast: destinations are the
neighbors other than the sender, every fan-out envelope carries the
value, and the arm finishes without failing. -/
lemma handleBroadcast_new_out (nd : Node) (src : String) (mid V : Nat) (nbrs : List String)
    (hnew : nd.messages.contains V = false)
    (htop : nd.topology.lookup nd.id = some nbrs) :
    (broadcastsIn (handleBroadcast nd src mid V).out).map Message.dest =
      nbrs.filter (fun x => ¬ (x = src)) ∧
    (∀ m ∈ broadcastsIn (handleBroadcast nd src mid V).out,
      ∃ k, m.body = Payload.Broadcast k V) ∧
    (handleBroadcast nd src mid V).err = none := by
  rw [@handleBroadcast_new nd src mid V nbrs hnew htop]
  refine ⟨?_, ?_, rfl⟩
  · rw [broadcastsIn_ack_cons, broadcastsIn_fanOut, fanOut_dests]
  · intro m hm
    rw [broadcastsIn_ack_cons, broadcastsIn_fanOut] at hm
    exact (fanOut_out_payload src V nbrs _ m hm).1

/-! ### Claim theorems -/

/-- C2: when a node handles a broadcast from sender `src` carrying a
value not yet delivered, it sends a broadcast fan-out request carrying
that value to every node in its own topology entry except `src`, and to
no other node. -/
theorem broadcast_fanout_excludes_sender
    (nd : Node) (src : String) (mid V : Nat) (nbrs : List String)
    (hnew : nd.messages.contains V = false)
    (htop : nd.topology.lookup nd.id = some nbrs) :
    (broadcastsIn (handleBroadcast nd src mid V).out).map Message.dest =
      nbrs.filter (fun x => ¬ (x = src)) ∧
    ∀ m ∈ broadcastsIn (handleBroadcast nd src mid V).out,
      ∃ k, m.body = Payload.Broadcast k V := by
  have h := handleBroadcast_new_out nd src mid V nbrs hnew htop
  exact ⟨h.1, h.2.1⟩

/-- C2 witness: with topology `n1 ↦ [n2, n3]`, a broadcast of value 5
arriving at `n1` from `n2` fans out only to `n3`. -/
theorem broadcast_fanout_excludes_sender_witness :
    (broadcastsIn (handleBroadcast
        (Node.mk "n1" ["n1", "n2", "n3"] 0 [("n1", ["n2", "n3"])] [] [])
        "n2" 7 5).out).map Message.dest = ["n3"] := by
  have h := broadcast_fanout_excludes_sender
    (Node.mk "n1" ["n1", "n2", "n3"] 0 [("n1", ["n2", "n3"])] [] [])
    "n2" 7 5 ["n2", "n3"] (by decide) (by decide)
  rw [h.1]
  decide

/-- C4: every broadcast request is answered by exactly one
`broadcast_ok` whose `in_reply_to` is the request's correlation id,
addressed to the sender, emitted first — before any fan-out — and
unconditionally, in all three branches of the arm. -/
theorem broadcast_ack_unconditional_first (nd : Node) (src : String) (mid V : Nat) :
    (handleBroadcast nd src mid V).out.head? =
      some ⟨nd.id, src, Payload.BroadcastOk (nd.last_msg_id + 1) mid⟩ ∧
    acksIn (handleBroadcast nd src mid V).out =
      [⟨nd.id, src, Payload.BroadcastOk (nd.last_msg_id + 1) mid⟩] := by
  rcases hc : nd.messages.contains V with _ | _
  · rcases htop : nd.topology.lookup nd.id with _ | nbrs
    · rw [@handleBroadcast_notop nd src mid V hc htop]
      exact ⟨rfl, by simp [acksIn]⟩
    · rw [@handleBroadcast_new nd src mid V nbrs hc htop]
      refine ⟨rfl, ?_⟩
      rw [acksIn_ack_cons, acksIn_fanOut]
  · rw [@handleBroadcast_dup nd src mid V hc]
    exact ⟨rfl, by simp [acksIn]⟩

/-- C5: a read request is answered by exactly one `read_ok` whose
`in_reply_to` is the request's correlation id and whose `messages` list
is the delivered-value set at that instant; the handler leaves the
delivered-value set (and everything else except the counter) unchanged
and cannot fail. -/
theorem read_returns_delivered_set (nd : Node) (src : String) (mid : Nat) :
    handleRead nd src mid =
      ⟨⟨nd.id, nd.node_ids, nd.last_msg_id + 1, nd.topology, nd.messages, nd.callbacks⟩,
       [⟨nd.id, src, Payload.ReadOk (nd.last_msg_id + 1) mid nd.messages⟩], none⟩ := rfl

/-- C8: a broadcast whose value is already delivered does nothing beyond
the unconditional acknowledgment: the only state change is the counter
increment for the acknowledgment's correlation id, and the single
`broadcast_ok` is the only envelope sent. -/
theorem broadcast_duplicate_noop (nd : Node) (src : String) (mid V : Nat)
    (h : nd.messages.contains V = true) :
    handleBroadcast nd src mid V =
      ⟨⟨nd.id, nd.node_ids, nd.last_msg_id + 1, nd.topology, nd.messages, nd.callbacks⟩,
       [⟨nd.id, src, Payload.BroadcastOk (nd.last_msg_id + 1) mid⟩], none⟩ :=
  handleBroadcast_dup h

/-- C8 witness: a node that already delivered 5 handles another
broadcast of 5 by acknowledging only. -/
theorem broadcast_duplicate_noop_witness :
    handleBroadcast (Node.mk "n1" ["n1", "n2"] 3 [("n1", ["n2"])] [5] [(2, "n2")])
        "n2" 9 5 =
      ⟨Node.mk "n1" ["n1", "n2"] 4 [("n1", ["n2"])] [5] [(2, "n2")],
       [⟨"n1", "n2", Payload.BroadcastOk 4 9⟩], none⟩ :=
  broadcast_duplicate_noop
    (Node.mk "n1" ["n1", "n2"] 3 [("n1", ["n2"])] [5] [(2, "n2")]) "n2" 9 5 (by decide)

/-- C9: fan-out of a new value requires the node's own topology entry:
without it the arm fails with the topology panic; with it the arm
completes with no failure. -/
theorem broadcast_requires_own_topology_entry (nd : Node) (src : String) (mid V : Nat) :
    (nd.messages.contains V = false → nd.topology.lookup nd.id = none →
      (handleBroadcast nd src mid V).err = some "failed get topology") ∧
    (nd.messages.contains V = false → (∃ nbrs, nd.topology.lookup nd.id = some nbrs) →
      (handleBroadcast nd src mid V).err = none) := by
  constructor
  · intro hnew htop
    rw [@handleBroadcast_notop nd src mid V hnew htop]
  · intro hnew htop
    rcases htop with ⟨nbrs, htop⟩
    exact (handleBroadcast_new_out nd src mid V nbrs hnew htop).2.2

/-- C9 witness: a new value at a node with no own topology entry dies on
the topology lookup, and with the entry present it completes. -/
theorem broadcast_requires_own_topology_entry_witness :
    (handleBroadcast (Node.mk "n1" ["n1", "n2"] 0 [] [] []) "n2" 7 5).err =
      some "failed get topology" ∧
    (handleBroadcast (Node.mk "n1" ["n1", "n2"] 0 [("n1", ["n2"])] [] []) "n2" 7 5).err =
      none :=
  ⟨(broadcast_requires_own_topology_entry
      (Node.mk "n1" ["n1", "n2"] 0 [] [] []) "n2" 7 5).1 (by decide) (by decide),
   (broadcast_requires_own_topology_entry
      (Node.mk "n1" ["n1", "n2"] 0 [("n1", ["n2"])] [] []) "n2" 7 5).2 (by decide)
      ⟨["n2"], by decide⟩⟩

/-- C10: after initialization, `init` and `init_ok` envelopes are not
silently discarded the way `echo_ok`, `generate_ok`, `topology_ok` and
`read_ok` are: they fall to the catch-all arm, which fails with the
invalid-message error while leaving the node untouched and emitting
nothing; the four acknowledgment tags are discarded silently with no
error, no output and no state change. -/
theorem post_init_init_rejected (nd : Node) (s d : String) :
    (∀ (mid : Nat) (nid : String) (nids : List String),
      handleMessage nd ⟨s, d, Payload.Init mid nid nids⟩ =
        ⟨nd, [], some "invalid message received"⟩) ∧
    (∀ irt : Nat, handleMessage nd ⟨s, d, Payload.InitOk irt⟩ =
        ⟨nd, [], some "invalid message received"⟩) ∧
    (∀ (a b : Nat) (e : String),
      handleMessage nd ⟨s, d, Payload.EchoOk a b e⟩ = ⟨nd, [], none⟩) ∧
    (∀ (a b : Nat) (i : String),
      handleMessage nd ⟨s, d, Payload.GenerateOk a b i⟩ = ⟨nd, [], none⟩) ∧
    (∀ a b : Nat, handleMessage nd ⟨s, d, Payload.TopologyOk a b⟩ = ⟨nd, [], none⟩) ∧
    (∀ (a b : Nat) (ms : List Nat),
      handleMessage nd ⟨s, d, Payload.ReadOk a b ms⟩ = ⟨nd, [], none⟩) :=
  ⟨fun _ _ _ => rfl, fun _ => rfl, fun _ _ _ => rfl, fun _ _ _ => rfl,
   fun _ _ => rfl, fun _ _ _ => rfl⟩

/-- C3: each fan-out of a new value adds exactly one outstanding-request
entry per envelope sent, keyed by that envelope's fresh correlation id
and mapped to its destination neighbor (newest first, nothing else
touched); a `broadcast_ok` whose `in_reply_to` is a present key removes
exactly that entry and no other, silently; and a `broadcast_ok` whose
`in_reply_to` matches no entry is fatal for that handler. -/
theorem callback_insert_remove_correlation :
    (∀ (nd : Node) (src : String) (mid V : Nat) (nbrs : List String),
      (∀ p ∈ nd.callbacks, p.1 ≤ nd.last_msg_id) →
      nd.messages.contains V = false →
      nd.topology.lookup nd.id = some nbrs →
      (handleBroadcast nd src mid V).node.callbacks =
        (cbPairs (handleBroadcast nd src mid V).out).reverse ++ nd.callbacks) ∧
    (∀ (nd : Node) (C : Nat) (v : String), nd.callbacks.lookup C = some v →
      (handleBroadcastOk nd C).err = none ∧
      (handleBroadcastOk nd C).node.callbacks.lookup C = none ∧
      (∀ k, ¬ (k = C) →
        (handleBroadcastOk nd C).node.callbacks.lookup k = nd.callbacks.lookup k) ∧
      (handleBroadcastOk nd C).out = []) ∧
    (∀ (nd : Node) (C : Nat), nd.callbacks.lookup C = none →
      handleBroadcastOk nd C = ⟨nd, [], some "callback not found"⟩) := by
  refine ⟨?_, ?_, ?_⟩
  · intro nd src mid V nbrs hfresh hnew htop
    rw [@handleBroadcast_new nd src mid V nbrs hnew htop]
    rw [cbPairs_ack_cons]
    exact fanOut_callbacks src V nbrs
      ⟨nd.id, nd.node_ids, nd.last_msg_id + 1, nd.topology, V :: nd.messages, nd.callbacks⟩
      (fun p hp => Nat.le_succ_of_le (hfresh p hp))
  · intro nd C v h
    simp only [handleBroadcastOk, h]
    refine ⟨trivial, ?_, ?_, trivial⟩
    · rw [lookup_hmRemove]
      simp
    · intro k hk
      rw [lookup_hmRemove]
      simp [hk]
  · intro nd C h
    simp only [handleBroadcastOk, h]

/-- C3 witness: a fan-out to two neighbors records the two fresh
correlation ids; acknowledging id 2 removes only that entry; and
acknowledging an absent id is the fatal branch. -/
theorem callback_insert_remove_correlation_witness :
    ((handleBroadcast (Node.mk "n1" ["n1", "n2", "n3"] 0
        [("n1", ["n2", "n3"])] [] []) "c0" 7 5).node.callbacks =
      (cbPairs (handleBroadcast (Node.mk "n1" ["n1", "n2", "n3"] 0
        [("n1", ["n2", "n3"])] [] []) "c0" 7 5).out).reverse ++ []) ∧
    ((handleBroadcastOk (Node.mk "n1" [] 9 [] [] [(2, "n2"), (3, "n3")]) 2).err = none ∧
     (handleBroadcastOk (Node.mk "n1" [] 9 [] [] [(2, "n2"), (3, "n3")])
        2).node.callbacks.lookup 2 = none ∧
     (handleBroadcastOk (Node.mk "n1" [] 9 [] [] [(2, "n2"), (3, "n3")])
        2).node.callbacks.lookup 3 = [(2, "n2"), (3, "n3")].lookup 3) ∧
    (handleBroadcastOk (Node.mk "n1" [] 9 [] [] [(2, "n2"), (3, "n3")]) 4 =
      ⟨Node.mk "n1" [] 9 [] [] [(2, "n2"), (3, "n3")], [], some "callback not found"⟩) := by
  have h2 := callback_insert_remove_correlation.2.1
    (Node.mk "n1" [] 9 [] [] [(2, "n2"), (3, "n3")]) 2 "n2" (by decide)
  exact ⟨callback_insert_remove_correlation.1
      (Node.mk "n1" ["n1", "n2", "n3"] 0 [("n1", ["n2", "n3"])] [] []) "c0" 7 5
      ["n2", "n3"] (by intro p hp; simp at hp) (by decide) (by decide),
    ⟨h2.1, h2.2.1, h2.2.2.1 3 (by decide)⟩,
    callback_insert_remove_correlation.2.2
      (Node.mk "n1" [] 9 [] [] [(2, "n2"), (3, "n3")]) 4 (by decide)⟩

/-- C6: initialization accepts exactly an `init` payload: it yields one
`init_ok` reply carrying the request's correlation id, addressed to the
envelope's sender, and node state with the given identity and member
list, counter 0 and empty topology, delivered-value set and callbacks
table; any other first payload fails with the sequencing error and
produces no reply. -/
theorem init_handshake :
    (∀ (s d : String) (mid : Nat) (nid : String) (nids : List String),
      initNode ⟨s, d, Payload.Init mid nid nids⟩ =
        .ok (⟨nid, nids, 0, [], [], []⟩, ⟨nid, s, Payload.InitOk mid⟩)) ∧
    (∀ m : Message, isInit m.body = false →
      initNode m = .error "received non init message before init") := by
  constructor
  · intro s d mid nid nids
    rfl
  · intro m h
    rcases m with ⟨s, d, body⟩
    cases body <;> first | rfl | (simp [isInit] at h)

/-- C6 witness: a concrete `init` is accepted and a concrete `echo`
first message is the sequencing violation. -/
theorem init_handshake_witness :
    initNode ⟨"c0", "n5", Payload.Init 1 "n5" ["n5", "n6"]⟩ =
      .ok (⟨"n5", ["n5", "n6"], 0, [], [], []⟩, ⟨"n5", "c0", Payload.InitOk 1⟩) ∧
    initNode ⟨"c0", "n5", Payload.Echo 1 "hi"⟩ =
      .error "received non init message before init" :=
  ⟨init_handshake.1 "c0" "n5" 1 "n5" ["n5", "n6"],
   init_handshake.2 ⟨"c0", "n5", Payload.Echo 1 "hi"⟩ (by decide)⟩

/-- C7 counterexample: cluster-unique identifiers and never-repeating
counters do not make ids from two distinct nodes distinct: node `n1`
at counter 20 and node `n12` at counter 0 both generate the id `n121`. -/
theorem generate_cross_node_collision :
    (Node.mk "n1" [] 20 [] [] []).id ≠ (Node.mk "n12" [] 0 [] [] []).id ∧
    (runGenerates (Node.mk "n1" [] 20 [] [] []) "c0" [9]).2 =
      (runGenerates (Node.mk "n12" [] 0 [] [] []) "c0" [9]).2 :=
  ⟨by decide, by rfl⟩

/-- C7 (amended): across any number of sequential `generate` requests at
one node the returned ids are pairwise distinct; and ids generated at
two distinct nodes are never equal provided the two node identifiers
have the same length (without that proviso the claim fails, see the
counterexample: concatenation without a separator lets `n1` + `21`
collide with `n12` + `1`). -/
theorem generate_ids_unique :
    (∀ (nd : Node) (src : String) (mids : List Nat),
      ((runGenerates nd src mids).2).Pairwise (fun a b => a ≠ b)) ∧
    (∀ (ndA ndB : Node) (srcA srcB : String) (midsA midsB : List Nat),
      ndA.id.length = ndB.id.length → ndA.id ≠ ndB.id →
      ∀ iA ∈ (runGenerates ndA srcA midsA).2,
        ∀ iB ∈ (runGenerates ndB srcB midsB).2, iA ≠ iB) := by
  constructor
  · intro nd src mids
    rw [runGenerates_ids]
    refine List.Pairwise.map _ ?_ (List.pairwise_lt_range mids.length)
    intro a b hab heq
    have := repr_nat_inj (string_append_right_inj heq)
    omega
  · intro ndA ndB srcA srcB midsA midsB hlen hne iA hiA iB hiB
    rcases runGenerates_mem iA hiA with ⟨cA, rfl⟩
    rcases runGenerates_mem iB hiB with ⟨cB, rfl⟩
    exact string_append_ne_of_ne hlen hne

/-- C7 witness: three sequential generates at one node give pairwise
distinct ids, and with equal-length distinct identifiers two nodes'
generated ids differ. -/
theorem generate_ids_unique_witness :
    ((runGenerates (Node.mk "n1" [] 0 [] [] []) "c0" [4, 5, 6]).2).Pairwise
      (fun a b => a ≠ b) ∧
    (∀ iA ∈ (runGenerates (Node.mk "n1" [] 0 [] [] []) "c0" [4]).2,
      ∀ iB ∈ (runGenerates (Node.mk "n2" [] 0 [] [] []) "c1" [7]).2, iA ≠ iB) :=
  ⟨generate_ids_unique.1 (Node.mk "n1" [] 0 [] [] []) "c0" [4, 5, 6],
   generate_ids_unique.2 (Node.mk "n1" [] 0 [] [] []) (Node.mk "n2" [] 0 [] [] [])
     "c0" "c1" [4] [7] (by decide) (by decide)⟩

/-- C1: over any sequence of broadcast requests delivered to one node
all carrying the same value (any senders, any correlation ids, any
number of repetitions), the delivered-value set ends up containing the
value exactly once, the fan-out happens while handling the first
request (to exactly the neighbors other than that request's sender),
and no later request of the sequence fans anything out. -/
theorem broadcast_dedup_fanout_once
    (nd : Node) (V : Nat) (src0 : String) (mid0 : Nat) (rest : List (String × Nat))
    (nbrs : List String)
    (hnew : nd.messages.contains V = false)
    (htop : nd.topology.lookup nd.id = some nbrs) :
    ((runBroadcasts nd V ((src0, mid0) :: rest)).1.messages.count V = 1) ∧
    ∃ out0 outs, (runBroadcasts nd V ((src0, mid0) :: rest)).2 = out0 :: outs ∧
      (broadcastsIn out0).map Message.dest = nbrs.filter (fun x => ¬ (x = src0)) ∧
      (∀ m ∈ broadcastsIn out0, ∃ k, m.body = Payload.Broadcast k V) ∧
      ∀ out ∈ outs, broadcastsIn out = [] := by
  have hVmem : V ∉ nd.messages := by simpa using hnew
  have hmsgs : (handleBroadcast nd src0 mid0 V).node.messages = V :: nd.messages := by
    rw [@handleBroadcast_new nd src0 mid0 V nbrs hnew htop]
    exact (fanOut_frame src0 V nbrs _).2.1
  have hcont : (handleBroadcast nd src0 mid0 V).node.messages.contains V = true := by
    rw [hmsgs]; simp
  have hdup := runBroadcasts_dup V rest (handleBroadcast nd src0 mid0 V).node hcont
  have hout := handleBroadcast_new_out nd src0 mid0 V nbrs hnew htop
  constructor
  · show (runBroadcasts (handleBroadcast nd src0 mid0 V).node V rest).1.messages.count V = 1
    rw [hdup.1, hmsgs, List.count_cons_self, List.count_eq_zero.mpr hVmem]
  · exact ⟨(handleBroadcast nd src0 mid0 V).out,
      (runBroadcasts (handleBroadcast nd src0 mid0 V).node V rest).2, rfl,
      hout.1, hout.2.1, hdup.2⟩

/-- C1 witness: value 5 delivered three times (from `n2`, `n3`, `n2`
again) to `n1` with topology `n1 ↦ [n2, n3]`: the set holds 5 once, the
first handling fans out exactly to `n3`, later handlings fan out
nothing. -/
theorem broadcast_dedup_fanout_once_witness :
    ((runBroadcasts (Node.mk "n1" ["n1", "n2", "n3"] 0 [("n1", ["n2", "n3"])] [] [])
        5 [("n2", 7), ("n3", 8), ("n2", 9)]).1.messages.count 5 = 1) ∧
    ∃ out0 outs,
      (runBroadcasts (Node.mk "n1" ["n1", "n2", "n3"] 0 [("n1", ["n2", "n3"])] [] [])
        5 [("n2", 7), ("n3", 8), ("n2", 9)]).2 = out0 :: outs ∧
      (broadcastsIn out0).map Message.dest =
        (["n2", "n3"] : List String).filter (fun x => ¬ (x = "n2")) ∧
      (∀ m ∈ broadcastsIn out0, ∃ k, m.body = Payload.Broadcast k 5) ∧
      ∀ out ∈ outs, broadcastsIn out = [] :=
  broadcast_dedup_fanout_once
    (Node.mk "n1" ["n1", "n2", "n3"] 0 [("n1", ["n2", "n3"])] [] [])
    5 "n2" 7 [("n3", 8), ("n2", 9)] ["n2", "n3"] (by decide) (by decide)

end Maelle
